import Mathlib

/-!
# Verification of the `screen_rotator` Arduino sketch

Shallow embedding of `src/arduino/arduino.ino`: a sketch that configures the
serial transport, brings up an ADXL345 accelerometer once, and then, in an
unbounded loop, reads one 3-axis acceleration sample per iteration and prints
it as `[x,y,z]` followed by a line terminator, pausing `DELAY_MS` between
iterations.

The sketch's externally visible behaviour is modelled as a trace of transport
events (`Event`).  Sensor readings are modelled as rationals; the Arduino
core's `Print` rendering of floats (which lives outside this repository) is
modelled from the spec: two digits after the decimal point, as in the spec's
end-to-end example `[1.00,-2.50,9.81]`.
-/

/-- `const int BAUD_RATE = 9600;` from the sketch. -/
def BAUD_RATE : Nat := 9600

/-- `const int DELAY_MS = 100;` from the sketch. -/
def DELAY_MS : Nat := 100

/-- The fixed diagnostic string printed by `setup` when `accel.begin()` fails. -/
def sensorNotFoundMsg : String := "!! Kein Sensor Gefunden !!"

/-- Modelled from the spec: the serial transport's line terminator (the
Arduino core's `println` implementation is outside this repository); the
spec's interface section fixes the sample-line format as `[<x>,<y>,<z>]\n`. -/
def lineTerminator : String := "\n"

/-- One decimal digit as a character (`0 ↦ '0'`, ..., `9 ↦ '9'`). -/
def decDigit (d : Nat) : Char := Char.ofNat (48 + d % 10)

/-- Decimal digits of `n`, most significant first, computed with fuel so the
definition is structural (and hence kernel-reducible).  `natDigits` below
supplies fuel `n`, which is always sufficient since `n / 10` shrinks. -/
def natDigitsAux : Nat → Nat → List Nat
  | 0, _ => []
  | fuel + 1, n => if n = 0 then [] else natDigitsAux fuel (n / 10) ++ [n % 10]

/-- Decimal digits of `n`, most significant first; `0` renders as `[0]`. -/
def natDigits (n : Nat) : List Nat :=
  if n = 0 then [0] else natDigitsAux n n

/-- Decimal rendering of a natural number. -/
def natDecimalString (n : Nat) : String :=
  String.mk ((natDigits n).map decDigit)

/-- Floor of a nonnegative rational, as a natural number. -/
def ratFloorNat (q : ℚ) : Nat := q.num.toNat / q.den

/-- The magnitude of `q`, rounded per the Arduino convention (add `0.005`,
truncate) and scaled by 100: the digit source for the two-decimal rendering. -/
def printFloatM (q : ℚ) : Nat :=
  ratFloorNat ((if q < 0 then -q else q) * 100 + 1 / 2)

/-- Modelled from the spec: the Arduino core's default rendering of a float by
`Serial.print` (the `Print::printFloat` routine is outside this repository).
Per the spec's end-to-end example, values render with exactly two digits after
the decimal point: round the magnitude by adding `0.005`, print the sign, the
integer part, `.`, and the first two fractional digits. -/
def printFloat (q : ℚ) : String :=
  (if q < 0 then "-" else "") ++ natDecimalString (printFloatM q / 100) ++ "." ++
    String.mk [decDigit (printFloatM q / 10 % 10), decDigit (printFloatM q % 10)]

/-- One accelerometer reading: `event.acceleration.{x,y,z}`. -/
structure Sample where
  x : ℚ
  y : ℚ
  z : ℚ
  deriving DecidableEq

/-- An observable effect of the sketch on its environment. -/
inductive Event where
  /-- `Serial.begin(baud)`: opens the transport at the given rate. -/
  | serialBegin (baud : Nat)
  /-- Bytes written to the serial transport. -/
  | write (s : String)
  /-- One call to `accel.getEvent(&event)`. -/
  | acquire
  /-- `delay(ms)`. -/
  | sleep (ms : Nat)
  deriving DecidableEq

/-- `Serial.print(s)`. -/
def serialPrint (s : String) : Event := Event.write s

/-- `Serial.println(s)`: the bytes of `s` followed by the line terminator. -/
def serialPrintln (s : String) : Event := Event.write (s ++ lineTerminator)

/-- Result of `setup`: the trace of events it produced and whether the sketch
entered the terminal `while(1);` busy-loop. -/
structure SetupResult where
  trace : List Event
  halted : Bool
  deriving DecidableEq

/-- The sketch's `setup`, parameterised by the result of `accel.begin()`:
`Serial.begin(BAUD_RATE)`, then on bring-up failure print the diagnostic and
halt forever. -/
def setup (beginOk : Bool) : SetupResult :=
  if beginOk then
    { trace := [Event.serialBegin BAUD_RATE], halted := false }
  else
    { trace := [Event.serialBegin BAUD_RATE, serialPrintln sensorNotFoundMsg],
      halted := true }

/-- One iteration of the sketch's `loop`, given the result of the sensor call
`accel.getEvent(&event)`: the reading written into `event` and the returned
status.  The status (`r.2`) is ignored, exactly as in the source. -/
def loopIter (r : Sample × Bool) : List Event :=
  [Event.acquire,
   serialPrint "[", serialPrint (printFloat r.1.x), serialPrint ",",
   serialPrint (printFloat r.1.y), serialPrint ",",
   serialPrint (printFloat r.1.z), serialPrintln "]",
   Event.sleep DELAY_MS]

/-- `n` iterations of `loop`, with the sensor modelled as a function from the
call index to the reading-and-status it produces. -/
def runLoop (sensor : Nat → Sample × Bool) : Nat → List Event
  | 0 => []
  | n + 1 => runLoop sensor n ++ loopIter (sensor n)

/-- The whole sketch observed for `n` loop iterations: `setup` once, then, if
it did not halt, `n` iterations of `loop`. -/
def runProgram (beginOk : Bool) (sensor : Nat → Sample × Bool) (n : Nat) :
    List Event :=
  if (setup beginOk).halted then (setup beginOk).trace
  else (setup beginOk).trace ++ runLoop sensor n

/-- The strings written to the serial transport, in order. -/
def writesOf (tr : List Event) : List String :=
  tr.filterMap fun e =>
    match e with
    | Event.write s => some s
    | _ => none

/-- The byte (character) stream written to the serial transport. -/
def outputChars (tr : List Event) : List Char :=
  ((writesOf tr).map String.data).flatten

/-- The durations of the `delay` calls in a trace, in order. -/
def sleepsOf (tr : List Event) : List Nat :=
  tr.filterMap fun e =>
    match e with
    | Event.sleep ms => some ms
    | _ => none

/-- Milliseconds of wall-clock time consumed by a trace, counting only the
`delay` calls (acquisition and formatting are modelled as instantaneous,
i.e. the bound below is the best case the claim's `≥` allows for). -/
def elapsedMs (tr : List Event) : Nat := (sleepsOf tr).sum

/-- Time at which iteration `i` of the loop starts emitting its sample line:
all events of earlier iterations have happened, and nothing of iteration `i`
has slept yet. -/
def emissionStart (sensor : Nat → Sample × Bool) (i : Nat) : Nat :=
  elapsedMs (runLoop sensor i)

/-- The text of one sample line (without the terminator), exactly as the
`Serial.print` calls of `loop` build it. -/
def sampleLine (s : Sample) : String :=
  "[" ++ printFloat s.x ++ "," ++ printFloat s.y ++ "," ++ printFloat s.z ++ "]"

/-- Characters of one sample line. -/
def lineChars (s : Sample) : List Char := (sampleLine s).data

/-- Split a character list at every occurrence of `sep`; the separators are
consumed.  Always returns at least one (possibly empty) chunk. -/
def splitOnSep (sep : Char) : List Char → List (List Char)
  | [] => [[]]
  | c :: cs =>
    if c = sep then [] :: splitOnSep sep cs
    else
      match splitOnSep sep cs with
      | [] => [[c]]
      | l :: ls => (c :: l) :: ls

/-- The complete lines of the serial output: split the byte stream at every
line terminator and drop the trailing unterminated chunk. -/
def emittedLines (tr : List Event) : List (List Char) :=
  (splitOnSep '\n' (outputChars tr)).dropLast

/-- The value of a decimal digit character, if it is one. -/
def digitVal (c : Char) : Option Nat :=
  if 48 ≤ c.toNat ∧ c.toNat ≤ 57 then some (c.toNat - 48) else none

/-- Accumulator pass of the decimal natural-number reader. -/
def parseNatAux : List Char → Nat → Option Nat
  | [], acc => some acc
  | c :: cs, acc =>
    match digitVal c with
    | some d => parseNatAux cs (acc * 10 + d)
    | none => none

/-- Read a nonempty all-digit character list as a natural number. -/
def parseNatChars (l : List Char) : Option Nat :=
  if l = [] then none else parseNatAux l 0

/-- Read an unsigned decimal (`123` or `123.45`) as a rational. -/
def parseUnsignedRat (l : List Char) : Option ℚ :=
  match splitOnSep '.' l with
  | [ip] => (parseNatChars ip).map (fun n => (n : ℚ))
  | [ip, fp] =>
    match parseNatChars ip, parseNatChars fp with
    | some i, some f => some ((i : ℚ) + (f : ℚ) / ((10 : ℚ) ^ fp.length))
    | _, _ => none
  | _ => none

/-- Read an optionally `-`-signed decimal as a rational. -/
def parseRatChars : List Char → Option ℚ
  | '-' :: rest => (parseUnsignedRat rest).map Neg.neg
  | l => parseUnsignedRat l

/-- Parse one emitted sample line `[x,y,z]` back into its three values. -/
def parseLine (l : List Char) : Option (ℚ × ℚ × ℚ) :=
  match l with
  | '[' :: rest =>
    match rest.getLast? with
    | some ']' =>
      match splitOnSep ',' rest.dropLast with
      | [a, b, c] =>
        match parseRatChars a, parseRatChars b, parseRatChars c with
        | some x, some y, some z => some (x, y, z)
        | _, _, _ => none
      | _ => none
    | _ => none
  | _ => none

/-- The mocked sensor of the spec's end-to-end example: every call succeeds
and reads `(1.0, -2.5, 9.81)`. -/
def mockSensor : Nat → Sample × Bool :=
  fun _ => ({ x := 1, y := -5/2, z := 981/100 }, true)

/-! ## Supporting lemmas -/

theorem data_append (s t : String) : (s ++ t).data = s.data ++ t.data := rfl

theorem data_lbrack : "[".data = ['['] := rfl

theorem data_rbrack : "]".data = [']'] := rfl

theorem data_comma : ",".data = [','] := rfl

theorem data_dot : ".".data = ['.'] := rfl

theorem data_dash : "-".data = ['-'] := rfl

theorem data_nl : "\n".data = ['\n'] := rfl

theorem data_mk (l : List Char) : (String.mk l).data = l := rfl

theorem natDigitsAux_lt (fuel : Nat) : ∀ n, ∀ d ∈ natDigitsAux fuel n, d < 10 := by
  induction fuel with
  | zero => intro n d hd; simp [natDigitsAux] at hd
  | succ fuel ih =>
    intro n d hd
    by_cases hn : n = 0
    · simp [natDigitsAux, hn] at hd
    · simp only [natDigitsAux, if_neg hn, List.mem_append, List.mem_singleton] at hd
      rcases hd with hd | hd
      · exact ih (n / 10) d hd
      · subst hd; exact Nat.mod_lt _ (by omega)

theorem natDigits_lt (n : Nat) : ∀ d ∈ natDigits n, d < 10 := by
  intro d hd
  by_cases hn : n = 0
  · simp [natDigits, hn] at hd; omega
  · simp only [natDigits, if_neg hn] at hd
    exact natDigitsAux_lt n n d hd

theorem natDigits_ne_nil (n : Nat) : natDigits n ≠ [] := by
  by_cases hn : n = 0
  · simp [natDigits, hn]
  · obtain ⟨k, rfl⟩ : ∃ k, n = k + 1 := ⟨n - 1, by omega⟩
    simp [natDigits, natDigitsAux, hn]

theorem decDigit_bounds (d : Nat) : '0' ≤ decDigit d ∧ decDigit d ≤ '9' := by
  have h : d % 10 < 10 := Nat.mod_lt _ (by omega)
  unfold decDigit
  interval_cases hd : d % 10 <;> exact ⟨by decide, by decide⟩

theorem mem_natDecimalString (n : Nat) :
    ∀ c ∈ (natDecimalString n).data, '0' ≤ c ∧ c ≤ '9' := by
  intro c hc
  simp only [natDecimalString, data_mk, List.mem_map] at hc
  obtain ⟨d, _, rfl⟩ := hc
  exact decDigit_bounds d

theorem printFloat_data (q : ℚ) :
    (printFloat q).data =
      (if q < 0 then ['-'] else []) ++
        ((natDigits (printFloatM q / 100)).map decDigit ++
          '.' :: [decDigit (printFloatM q / 10 % 10), decDigit (printFloatM q % 10)]) := by
  by_cases hq : q < 0 <;>
    simp [printFloat, hq, data_append, data_dash, data_dot, data_mk, natDecimalString]

theorem printFloat_chars (q : ℚ) :
    ∀ c ∈ (printFloat q).data, c = '-' ∨ c = '.' ∨ ('0' ≤ c ∧ c ≤ '9') := by
  intro c hc
  rw [printFloat_data] at hc
  rcases List.mem_append.mp hc with hc | hc
  · left
    by_cases hq : q < 0 <;> simp [hq] at hc
    exact hc
  · rcases List.mem_append.mp hc with hc | hc
    · obtain ⟨d, _, rfl⟩ := List.mem_map.mp hc
      exact Or.inr (Or.inr (decDigit_bounds d))
    · rcases List.mem_cons.mp hc with rfl | hc
      · exact Or.inr (Or.inl rfl)
      · rcases List.mem_cons.mp hc with rfl | hc
        · exact Or.inr (Or.inr (decDigit_bounds _))
        · rcases List.mem_singleton.mp hc with rfl
          exact Or.inr (Or.inr (decDigit_bounds _))

theorem lineChars_eq (s : Sample) :
    lineChars s =
      ['['] ++ (printFloat s.x).data ++ [','] ++ (printFloat s.y).data ++ [','] ++
        (printFloat s.z).data ++ [']'] := by
  simp [lineChars, sampleLine, data_append, data_lbrack, data_rbrack, data_comma]

theorem printFloat_no_delim (q : ℚ) :
    ∀ c ∈ (printFloat q).data, c ≠ '\n' ∧ c ≠ ',' ∧ c ≠ '[' ∧ c ≠ ']' := by
  intro c hc
  rcases printFloat_chars q c hc with rfl | rfl | ⟨h0, h9⟩
  · exact ⟨by decide, by decide, by decide, by decide⟩
  · exact ⟨by decide, by decide, by decide, by decide⟩
  · refine ⟨?_, ?_, ?_, ?_⟩ <;> rintro rfl
    · exact absurd h0 (by decide)
    · exact absurd h0 (by decide)
    · exact absurd h9 (by decide)
    · exact absurd h9 (by decide)

theorem not_mem_printFloat_comma (q : ℚ) : ',' ∉ (printFloat q).data := by
  intro hc
  exact (printFloat_no_delim q _ hc).2.1 rfl

theorem not_mem_printFloat_nl (q : ℚ) : '\n' ∉ (printFloat q).data := by
  intro hc
  exact (printFloat_no_delim q _ hc).1 rfl

theorem not_mem_lineChars_nl (s : Sample) : '\n' ∉ lineChars s := by
  rw [lineChars_eq]
  simp only [List.mem_append, List.mem_singleton, List.mem_cons, List.not_mem_nil]
  push_neg
  refine ⟨⟨⟨⟨⟨⟨?_, ?_⟩, ?_⟩, ?_⟩, ?_⟩, ?_⟩, ?_⟩ <;>
    first
      | decide
      | exact not_mem_printFloat_nl _

theorem count_comma_lineChars (s : Sample) : (lineChars s).count ',' = 2 := by
  rw [lineChars_eq]
  simp [List.count_append, List.count_eq_zero.mpr (not_mem_printFloat_comma s.x),
    List.count_eq_zero.mpr (not_mem_printFloat_comma s.y),
    List.count_eq_zero.mpr (not_mem_printFloat_comma s.z)]

theorem splitOnSep_ne_nil (sep : Char) (l : List Char) : splitOnSep sep l ≠ [] := by
  induction l with
  | nil => simp [splitOnSep]
  | cons c cs ih =>
    by_cases hc : c = sep
    · simp [splitOnSep, hc]
    · simp only [splitOnSep, if_neg hc]
      cases h : splitOnSep sep cs with
      | nil => exact absurd h ih
      | cons l ls => simp

theorem splitOnSep_cons_sep (sep : Char) (ys : List Char) :
    splitOnSep sep (sep :: ys) = [] :: splitOnSep sep ys := by
  simp [splitOnSep]

theorem splitOnSep_append_sep (sep : Char) (xs ys : List Char) (h : sep ∉ xs) :
    splitOnSep sep (xs ++ sep :: ys) = xs :: splitOnSep sep ys := by
  induction xs with
  | nil => simpa using splitOnSep_cons_sep sep ys
  | cons x xs ih =>
    have hx : x ≠ sep := fun hx => h (hx ▸ List.mem_cons_self x xs)
    have hxs : sep ∉ xs := fun hm => h (List.mem_cons_of_mem x hm)
    simp only [List.cons_append, splitOnSep, if_neg hx, List.append_eq]
    rw [ih hxs]

theorem splitOnSep_flatten_lines (L : List (List Char))
    (h : ∀ l ∈ L, '\n' ∉ l) :
    splitOnSep '\n' ((L.map (fun l => l ++ ['\n'])).flatten) = L ++ [[]] := by
  induction L with
  | nil => simp [splitOnSep]
  | cons l L ih =>
    have hl : '\n' ∉ l := h l (List.mem_cons_self l L)
    have hL : ∀ m ∈ L, '\n' ∉ m := fun m hm => h m (List.mem_cons_of_mem l hm)
    simp only [List.map_cons, List.flatten_cons, List.append_assoc, List.singleton_append]
    rw [splitOnSep_append_sep _ _ _ hl, ih hL]
    simp

theorem writesOf_append (a b : List Event) :
    writesOf (a ++ b) = writesOf a ++ writesOf b :=
  List.filterMap_append a b _

theorem outputChars_append (a b : List Event) :
    outputChars (a ++ b) = outputChars a ++ outputChars b := by
  simp [outputChars, writesOf_append]

theorem outputChars_loopIter (r : Sample × Bool) :
    outputChars (loopIter r) = lineChars r.1 ++ ['\n'] := by
  simp [outputChars, writesOf, loopIter, serialPrint, serialPrintln, lineTerminator,
    lineChars_eq, data_append, data_lbrack, data_rbrack, data_comma, data_nl]

theorem outputChars_runLoop (sensor : Nat → Sample × Bool) (n : Nat) :
    outputChars (runLoop sensor n) =
      ((List.range n).map (fun i => lineChars (sensor i).1 ++ ['\n'])).flatten := by
  induction n with
  | zero => simp [runLoop, outputChars, writesOf]
  | succ n ih =>
    rw [runLoop, outputChars_append, ih, outputChars_loopIter, List.range_succ]
    simp

theorem emittedLines_runLoop (sensor : Nat → Sample × Bool) (n : Nat) :
    emittedLines (runLoop sensor n) =
      (List.range n).map (fun i => lineChars (sensor i).1) := by
  unfold emittedLines
  rw [outputChars_runLoop]
  have hmap : (List.range n).map (fun i => lineChars (sensor i).1 ++ ['\n']) =
      ((List.range n).map (fun i => lineChars (sensor i).1)).map (fun l => l ++ ['\n']) := by
    simp
  rw [hmap, splitOnSep_flatten_lines]
  · exact List.dropLast_concat
  · intro l hl
    obtain ⟨i, _, rfl⟩ := List.mem_map.mp hl
    exact not_mem_lineChars_nl _

theorem sleepsOf_append (a b : List Event) :
    sleepsOf (a ++ b) = sleepsOf a ++ sleepsOf b :=
  List.filterMap_append a b _

theorem elapsedMs_append (a b : List Event) :
    elapsedMs (a ++ b) = elapsedMs a + elapsedMs b := by
  simp [elapsedMs, sleepsOf_append]

theorem sleepsOf_loopIter (r : Sample × Bool) : sleepsOf (loopIter r) = [DELAY_MS] := rfl

theorem emissionStart_succ (sensor : Nat → Sample × Bool) (i : Nat) :
    emissionStart sensor (i + 1) = emissionStart sensor i + DELAY_MS := by
  unfold emissionStart
  rw [runLoop, elapsedMs_append]
  simp [elapsedMs, sleepsOf_loopIter]

/-! ## Claim theorems -/

/-- C1: every line emitted by the sample loop matches `[<number>,<number>,<number>]`:
it begins with `[`, ends with `]`, contains exactly two commas, and between the
delimiters stand the textual renderings of the x, y and z values of that
iteration's reading, in that order. -/
theorem sample_line_format (sensor : Nat → Sample × Bool) (n : Nat)
    (line : List Char) (h : line ∈ emittedLines (runLoop sensor n)) :
    line.head? = some '[' ∧ line.getLast? = some ']' ∧ line.count ',' = 2 ∧
    ∃ i, i < n ∧
      line = ['['] ++ (printFloat (sensor i).1.x).data ++ [','] ++
        (printFloat (sensor i).1.y).data ++ [','] ++
        (printFloat (sensor i).1.z).data ++ [']'] := by
  rw [emittedLines_runLoop] at h
  obtain ⟨i, hi, rfl⟩ := List.mem_map.mp h
  refine ⟨?_, ?_, count_comma_lineChars _, i, List.mem_range.mp hi, lineChars_eq _⟩
  · rw [lineChars_eq]
    simp [List.head?_append]
  · rw [lineChars_eq]
    exact List.getLast?_concat _

/-- Witness for C1: the concrete line emitted by one iteration on the mocked
sensor satisfies the format invariant. -/
theorem sample_line_format_witness :
    "[1.00,-2.50,9.81]".data ∈ emittedLines (runLoop mockSensor 1) ∧
    ("[1.00,-2.50,9.81]".data.head? = some '[' ∧
      "[1.00,-2.50,9.81]".data.getLast? = some ']' ∧
      "[1.00,-2.50,9.81]".data.count ',' = 2 ∧
      ∃ i, i < 1 ∧
        "[1.00,-2.50,9.81]".data = ['['] ++ (printFloat (mockSensor i).1.x).data ++ [','] ++
          (printFloat (mockSensor i).1.y).data ++ [','] ++
          (printFloat (mockSensor i).1.z).data ++ [']']) :=
  ⟨by with_unfolding_all decide,
   sample_line_format mockSensor 1 _ (by with_unfolding_all decide)⟩

/-- C2: if `accel.begin()` fails, `setup` writes the fixed diagnostic string
to the transport exactly once (it is the only write, whatever the observation
horizon `n`), the sketch is in the terminal halted state, and no sample line
is ever emitted: the only complete output line is the diagnostic. -/
theorem startup_failure_halts (sensor : Nat → Sample × Bool) (n : Nat) :
    (setup false).halted = true ∧
    runProgram false sensor n = (setup false).trace ∧
    writesOf (runProgram false sensor n) = [sensorNotFoundMsg ++ lineTerminator] ∧
    emittedLines (runProgram false sensor n) = [sensorNotFoundMsg.data] := by
  refine ⟨rfl, rfl, rfl, ?_⟩
  have h : runProgram false sensor n = (setup false).trace := rfl
  rw [h]
  with_unfolding_all decide

set_option maxRecDepth 10000 in
/-- C3: with a mocked sensor returning `(1.0, -2.5, 9.81)` on every call,
three iterations emit exactly three lines, and each parses back to exactly
those three values. -/
theorem end_to_end_example :
    (emittedLines (runLoop mockSensor 3)).length = 3 ∧
    (emittedLines (runLoop mockSensor 3)).map parseLine =
      [some (1, -5/2, 981/100), some (1, -5/2, 981/100), some (1, -5/2, 981/100)] := by
  with_unfolding_all decide

/-- C4: after successful initialization, running the loop for `N` iterations
emits exactly `N` complete sample lines, for every `N`. -/
theorem loop_liveness (sensor : Nat → Sample × Bool) (n : Nat) :
    (emittedLines (runLoop sensor n)).length = n := by
  rw [emittedLines_runLoop]
  simp

/-- C5: every loop iteration ends with exactly one `delay(DELAY_MS)` (its
sleeps are exactly `[DELAY_MS]` and it is the final event, after the line is
written), so consecutive sample emissions start exactly `DELAY_MS` apart —
in particular at least `DELAY_MS` apart. -/
theorem loop_pacing (sensor : Nat → Sample × Bool) (i : Nat) :
    (loopIter (sensor i)).getLast? = some (Event.sleep DELAY_MS) ∧
    sleepsOf (loopIter (sensor i)) = [DELAY_MS] ∧
    emissionStart sensor (i + 1) = emissionStart sensor i + DELAY_MS ∧
    DELAY_MS ≤ emissionStart sensor (i + 1) - emissionStart sensor i := by
  refine ⟨rfl, rfl, emissionStart_succ sensor i, ?_⟩
  rw [emissionStart_succ]
  omega

/-- C6: the byte stream of `n` iterations is exactly the concatenation, over
the iterations in order, of the sample-line text followed by the single
terminator `'\n'` — nothing else is ever written. -/
theorem sample_line_bytes (sensor : Nat → Sample × Bool) (n : Nat) :
    outputChars (loopIter (sensor n)) = (sampleLine (sensor n).1).data ++ ['\n'] ∧
    outputChars (runLoop sensor n) =
      ((List.range n).map (fun i => (sampleLine (sensor i).1).data ++ ['\n'])).flatten :=
  ⟨outputChars_loopIter _, outputChars_runLoop sensor n⟩

/-- C7: each loop iteration performs exactly one sensor acquisition, and the
trace of the iteration — including the emitted line — does not depend on the
status the acquisition returns: the sample is formatted and written
unconditionally. -/
theorem acquisition_unchecked (s : Sample) (b b' : Bool) :
    (loopIter (s, b)).count Event.acquire = 1 ∧
    loopIter (s, b) = loopIter (s, b') ∧
    outputChars (loopIter (s, b)) = (sampleLine s).data ++ ['\n'] :=
  ⟨rfl, rfl, outputChars_loopIter (s, b)⟩

/-- C8: every value is rendered with exactly two digits after the decimal
point: an optional `-`, a nonempty run of digits, `.`, then exactly two
digits; in particular `1.0` renders as `1.00` and `9.81` as `9.81`. -/
theorem two_decimal_rendering :
    (∀ q : ℚ, ∃ sign ds c1 c2,
      (sign = [] ∨ sign = ['-']) ∧ ds ≠ [] ∧
      (∀ c ∈ ds, '0' ≤ c ∧ c ≤ '9') ∧
      ('0' ≤ c1 ∧ c1 ≤ '9') ∧ ('0' ≤ c2 ∧ c2 ≤ '9') ∧
      (printFloat q).data = sign ++ (ds ++ '.' :: [c1, c2])) ∧
    printFloat 1 = "1.00" ∧ printFloat (981/100) = "9.81" := by
  refine ⟨fun q => ⟨if q < 0 then ['-'] else [],
    (natDigits (printFloatM q / 100)).map decDigit,
    decDigit (printFloatM q / 10 % 10), decDigit (printFloatM q % 10),
    ?_, ?_, ?_, decDigit_bounds _, decDigit_bounds _, printFloat_data q⟩, ?_, ?_⟩
  · by_cases hq : q < 0 <;> simp [hq]
  · simp [natDigits_ne_nil]
  · intro c hc
    obtain ⟨d, _, rfl⟩ := List.mem_map.mp hc
    exact decDigit_bounds d
  · with_unfolding_all decide
  · with_unfolding_all decide

/-- C9: the loop is deterministic in the sensor readings: two runs whose
sensors return the same readings (whatever the statuses) write identical byte
streams. -/
theorem output_deterministic (s1 s2 : Nat → Sample × Bool) (n : Nat)
    (h : ∀ i, i < n → (s1 i).1 = (s2 i).1) :
    outputChars (runLoop s1 n) = outputChars (runLoop s2 n) := by
  rw [outputChars_runLoop, outputChars_runLoop]
  refine congrArg _ (List.map_congr_left ?_)
  intro i hi
  rw [h i (List.mem_range.mp hi)]

/-- Sensor with succeeding status used by the C9 witness. -/
def sensorA : Nat → Sample × Bool := fun _ => ({ x := 1, y := 2, z := 3 }, true)

/-- Sensor with the same readings but failing status, for the C9 witness. -/
def sensorB : Nat → Sample × Bool := fun _ => ({ x := 1, y := 2, z := 3 }, false)

/-- Witness for C9: two concrete sensors with equal readings and different
statuses produce identical byte streams over two iterations. -/
theorem output_deterministic_witness :
    (∀ i, i < 2 → (sensorA i).1 = (sensorB i).1) ∧
    outputChars (runLoop sensorA 2) = outputChars (runLoop sensorB 2) :=
  ⟨fun _ _ => rfl, output_deterministic sensorA sensorB 2 (fun _ _ => rfl)⟩

/-- C10: on successful bring-up, `setup` writes nothing: its trace is just
opening the transport at `BAUD_RATE`, the whole program's output equals the
loop's output, and the stream starts with the first sample line. -/
theorem setup_success_silent (sensor : Nat → Sample × Bool) (n : Nat) :
    (setup true).trace = [Event.serialBegin BAUD_RATE] ∧
    writesOf (setup true).trace = [] ∧
    (setup true).halted = false ∧
    outputChars (runProgram true sensor n) = outputChars (runLoop sensor n) ∧
    (outputChars (runProgram true sensor (n + 1))).take
        ((sampleLine (sensor 0).1).data ++ ['\n']).length
      = (sampleLine (sensor 0).1).data ++ ['\n'] := by
  have hrun : runProgram true sensor n = (setup true).trace ++ runLoop sensor n := rfl
  have hout : ∀ m, outputChars (runProgram true sensor m) = outputChars (runLoop sensor m) := by
    intro m
    have h : runProgram true sensor m = (setup true).trace ++ runLoop sensor m := rfl
    rw [h, outputChars_append]
    rfl
  refine ⟨rfl, rfl, rfl, hout n, ?_⟩
  rw [hout (n + 1), outputChars_runLoop, List.range_succ_eq_map]
  simp only [List.map_cons, List.flatten_cons]
  exact List.take_left _ _
